import Mathlib

/-!
Shallow embedding of the task/assignment, status-cascade, permission-table and
date-range logic of the Akhand office portal (`consolidated-app.py`).

Rows of the relational tables become structures; the database becomes a record
of row lists plus the serial counters; each SQL statement of an operation
becomes the corresponding pure list transformation, in the order the source
executes them.  Python truthiness of a nullable integer column (`if branch_id`)
is modelled by `optTruthy`.  Timestamps are abstract `Nat` values passed in as
`now`.
-/

namespace Akhand

/-- A row of the `companies` table (the columns the modelled operations read). -/
structure Company where
  id : Nat
  is_active : Bool
  deriving Repr, DecidableEq

/-- A row of the `branches` table. -/
structure Branch where
  id : Nat
  company_id : Nat
  is_active : Bool
  deriving Repr, DecidableEq

/-- A row of the `employee_roles` table. -/
structure Role where
  id : Nat
  role_level : Nat
  deriving Repr, DecidableEq

/-- A row of the `employees` table. -/
structure Employee where
  id : Nat
  branch_id : Nat
  role_id : Nat
  is_active : Bool
  deriving Repr, DecidableEq

/-- A row of the `tasks` table.  `branch_id`/`employee_id` are nullable. -/
structure Task where
  id : Nat
  company_id : Nat
  branch_id : Option Nat
  employee_id : Option Nat
  task_description : String
  due_date : Option Nat
  is_completed : Bool
  completed_by_id : Option Nat
  completed_at : Option Nat
  deriving Repr, DecidableEq

/-- A row of the `task_assignments` table. -/
structure TaskAssignment where
  id : Nat
  task_id : Nat
  employee_id : Nat
  is_completed : Bool
  completed_at : Option Nat
  deriving Repr, DecidableEq

/-- The database: the row lists plus the serial-id counters for the two tables
the modelled operations insert into. -/
structure DB where
  companies : List Company
  branches : List Branch
  roles : List Role
  employees : List Employee
  tasks : List Task
  assignments : List TaskAssignment
  next_task_id : Nat
  next_assignment_id : Nat
  deriving Repr, DecidableEq

/-- Python truthiness of a nullable integer column: `None` and `0` are falsy. -/
def optTruthy : Option Nat → Bool
  | none => false
  | some n => n != 0

/-- `SELECT id FROM employees WHERE branch_id = :branch_id AND is_active = TRUE`. -/
def activeBranchEmployees (db : DB) (branch_id : Nat) : List Employee :=
  db.employees.filter (fun e => e.branch_id == branch_id && e.is_active)

/-- `TaskModel.create_task`: insert the task row; when branch-targeted (truthy
`branch_id` and no `employee_id`) fan out one incomplete `TaskAssignment` per
currently active employee of the branch.  Returns the new task's id. -/
def create_task (db : DB) (company_id : Nat) (task_description : String)
    (due_date : Option Nat) (branch_id employee_id : Option Nat) : DB × Nat :=
  let task_id := db.next_task_id
  let newTask : Task :=
    { id := task_id, company_id := company_id, branch_id := branch_id,
      employee_id := employee_id, task_description := task_description,
      due_date := due_date, is_completed := false,
      completed_by_id := none, completed_at := none }
  if optTruthy branch_id && !optTruthy employee_id then
    let emps := activeBranchEmployees db (branch_id.getD 0)
    let newAssignments := emps.enum.map (fun p =>
      { id := db.next_assignment_id + p.1, task_id := task_id,
        employee_id := p.2.id, is_completed := false,
        completed_at := none : TaskAssignment })
    ({ db with tasks := db.tasks ++ [newTask],
               assignments := db.assignments ++ newAssignments,
               next_task_id := task_id + 1,
               next_assignment_id := db.next_assignment_id + newAssignments.length },
     task_id)
  else
    ({ db with tasks := db.tasks ++ [newTask], next_task_id := task_id + 1 },
     task_id)

/-- The role-level lookup inside `mark_task_completed`:
`SELECT r.role_level FROM employees e JOIN employee_roles r ON e.role_id = r.id
WHERE e.id = :employee_id`. -/
def lookupRoleLevel (db : DB) (employee_id : Nat) : Option Nat :=
  match db.employees.find? (fun e => e.id == employee_id) with
  | none => none
  | some e => (db.roles.find? (fun r => r.id == e.role_id)).map (fun r => r.role_level)

/-- `UPDATE tasks SET is_completed = TRUE, completed_at = :now,
completed_by_id = :employee_id WHERE id = :task_id`. -/
def completeTaskRows (tasks : List Task) (task_id employee_id now : Nat) : List Task :=
  tasks.map (fun t =>
    if t.id == task_id then
      { t with is_completed := true, completed_at := some now,
               completed_by_id := some employee_id }
    else t)

/-- `UPDATE task_assignments SET is_completed = TRUE, completed_at = :now
WHERE task_id = :task_id AND employee_id = :employee_id`. -/
def markAssignmentRows (assignments : List TaskAssignment)
    (task_id employee_id now : Nat) : List TaskAssignment :=
  assignments.map (fun a =>
    if a.task_id == task_id && a.employee_id == employee_id then
      { a with is_completed := true, completed_at := some now }
    else a)

/-- `TaskModel.mark_task_completed`: look the task up; if already complete do
nothing and report `true`; on the branch path mark the actor's assignment,
then complete the whole task when the actor's role level is ≤ 2 (manager
override) or when no incomplete assignment remains; on the direct path complete
the task only for the designated employee.  Returns the updated database and
whether the overall task is now complete.

The schema declares `completed_by_id INTEGER REFERENCES employees(id)`, so in
the program the completing UPDATE raises a foreign-key violation (and the
transaction rolls back) when the actor id has no `employees` row.  That error
path is not modelled here; the theorems below therefore only assert completing
writes for actor ids present in the employees table (or, on the direct path,
for the designated employee, itself FK-constrained by
`tasks.employee_id REFERENCES employees(id)`). -/
def mark_task_completed (db : DB) (task_id employee_id now : Nat) : DB × Bool :=
  match db.tasks.find? (fun t => t.id == task_id) with
  | none => (db, false)
  | some task =>
    if task.is_completed then (db, true)
    else if optTruthy task.branch_id then
      let assignments' := markAssignmentRows db.assignments task_id employee_id now
      let is_manager := match lookupRoleLevel db employee_id with
        | some lvl => decide (lvl ≤ 2)
        | none => false
      if is_manager then
        ({ db with tasks := completeTaskRows db.tasks task_id employee_id now,
                   assignments := assignments' }, true)
      else
        let all_complete :=
          assignments'.countP (fun a => a.task_id == task_id && !a.is_completed) == 0
        if all_complete then
          ({ db with tasks := completeTaskRows db.tasks task_id employee_id now,
                     assignments := assignments' }, true)
        else
          ({ db with assignments := assignments' }, false)
    else if task.employee_id == some employee_id then
      ({ db with tasks := completeTaskRows db.tasks task_id employee_id now }, true)
    else (db, false)

/-- `TaskModel.reopen_task`: clear the completion flag, timestamp and
completed-by of the task row, then clear every assignment of the task. -/
def reopen_task (db : DB) (task_id : Nat) : DB :=
  { db with
    tasks := db.tasks.map (fun t =>
      if t.id == task_id then
        { t with is_completed := false, completed_at := none, completed_by_id := none }
      else t),
    assignments := db.assignments.map (fun a =>
      if a.task_id == task_id then
        { a with is_completed := false, completed_at := none }
      else a) }

/-- `CompanyModel.update_company_status`: set the company's flag, then every
branch of the company, then every employee whose branch is
`IN (SELECT id FROM branches WHERE company_id = :company_id)`. -/
def update_company_status (db : DB) (company_id : Nat) (is_active : Bool) : DB :=
  let companies' := db.companies.map (fun c =>
    if c.id == company_id then { c with is_active := is_active } else c)
  let branches' := db.branches.map (fun b =>
    if b.company_id == company_id then { b with is_active := is_active } else b)
  let employees' := db.employees.map (fun e =>
    if branches'.any (fun b => b.company_id == company_id && b.id == e.branch_id) then
      { e with is_active := is_active }
    else e)
  { db with companies := companies', branches := branches', employees := employees' }

/-- `BranchModel.update_branch_status`: set the branch's flag, then set every
employee of that branch to the same flag. -/
def update_branch_status (db : DB) (branch_id : Nat) (is_active : Bool) : DB :=
  { db with
    branches := db.branches.map (fun b =>
      if b.id == branch_id then { b with is_active := is_active } else b),
    employees := db.employees.map (fun e =>
      if e.branch_id == branch_id then { e with is_active := is_active } else e) }

/-- `EmployeeModel.add_employee`: insert a new active employee row. -/
def add_employee (db : DB) (id branch_id role_id : Nat) : DB :=
  { db with employees := db.employees ++
      [{ id := id, branch_id := branch_id, role_id := role_id, is_active := true }] }

namespace RolePermissions

/-- `RolePermissions.MANAGER`. -/
def MANAGER : Nat := 1

/-- `RolePermissions.ASST_MANAGER`. -/
def ASST_MANAGER : Nat := 2

/-- `RolePermissions.GENERAL_EMPLOYEE`. -/
def GENERAL_EMPLOYEE : Nat := 3

/-- `RolePermissions.can_create_employees`. -/
def can_create_employees (user_role_level : Nat) : Bool :=
  user_role_level ≤ ASST_MANAGER

/-- `RolePermissions.can_assign_tasks_to`. -/
def can_assign_tasks_to (user_role_level target_role_level : Nat) : Bool :=
  if user_role_level == MANAGER then target_role_level ≥ ASST_MANAGER
  else if user_role_level == ASST_MANAGER then target_role_level == GENERAL_EMPLOYEE
  else false

/-- `RolePermissions.can_view_reports_of`. -/
def can_view_reports_of (user_role_level target_role_level : Nat) : Bool :=
  if user_role_level == MANAGER then true
  else if user_role_level == ASST_MANAGER then target_role_level ≥ ASST_MANAGER
  else user_role_level == target_role_level

/-- `RolePermissions.can_deactivate_role`. -/
def can_deactivate_role (user_role_level target_role_level : Nat) : Bool :=
  if user_role_level == MANAGER then target_role_level > user_role_level
  else if user_role_level == ASST_MANAGER then target_role_level == GENERAL_EMPLOYEE
  else false

end RolePermissions

/-! ## Calendar dates

`datetime.date` values, with the proleptic-Gregorian ordinal (Python's
`date.toordinal`, `0001-01-01 ↦ 1`), `date.weekday` (Monday = 0) and
day-by-day subtraction modelling `date - timedelta(days=n)`. -/

/-- A `datetime.date` value. -/
structure Date where
  year : Nat
  month : Nat
  day : Nat
  deriving Repr, DecidableEq

/-- Gregorian leap-year rule. -/
def isLeapYear (y : Nat) : Bool :=
  (y % 4 == 0 && y % 100 != 0) || y % 400 == 0

/-- Number of days of month `m` of year `y`. -/
def daysInMonth (y m : Nat) : Nat :=
  if m == 2 then (if isLeapYear y then 29 else 28)
  else if m == 4 || m == 6 || m == 9 || m == 11 then 30
  else 31

/-- Number of days of year `y` strictly before month `m`. -/
def daysBeforeMonth (y : Nat) : Nat → Nat
  | 0 => 0
  | 1 => 0
  | n + 1 => daysBeforeMonth y n + daysInMonth y n

/-- Number of leap years in `1..y`. -/
def leapsBefore (y : Nat) : Nat := y / 4 - y / 100 + y / 400

/-- `date.toordinal`: `0001-01-01` has ordinal 1. -/
def toOrdinal (d : Date) : Nat :=
  365 * (d.year - 1) + leapsBefore (d.year - 1) + daysBeforeMonth d.year d.month + d.day

/-- `date.weekday`: Monday = 0 … Sunday = 6. -/
def weekday (d : Date) : Nat := (toOrdinal d + 6) % 7

/-- `d - timedelta(days=1)` on valid dates. -/
def subDay (d : Date) : Date :=
  if 1 < d.day then { d with day := d.day - 1 }
  else if 1 < d.month then
    { year := d.year, month := d.month - 1, day := daysInMonth d.year (d.month - 1) }
  else
    { year := d.year - 1, month := 12, day := 31 }

/-- `d - timedelta(days=n)` on valid dates, one day at a time. -/
def subDays (d : Date) : Nat → Date
  | 0 => d
  | n + 1 => subDays (subDay d) n

/-- The date is a value `datetime.date` accepts. -/
def Date.isValid (d : Date) : Prop :=
  1 ≤ d.year ∧ 1 ≤ d.month ∧ d.month ≤ 12 ∧ 1 ≤ d.day ∧ d.day ≤ daysInMonth d.year d.month

instance (d : Date) : Decidable d.isValid := by
  unfold Date.isValid; infer_instance

/-- The date-range computation of `view_branch_employee_reports` (and the other
report views): maps the selected preset and the current date to the inclusive
`(start_date, end_date)` pair.  `Custom Range` reads its bounds from the UI and
is modelled as `none`. -/
def view_reports_date_range (date_filter : String) (today : Date) :
    Option (Date × Date) :=
  if date_filter == "Today" then some (today, today)
  else if date_filter == "This Week" then
    some (subDays today (weekday today), today)
  else if date_filter == "This Month" then
    some ({ today with day := 1 }, today)
  else if date_filter == "Last Month" then
    let last_month := if 1 < today.month then today.month - 1 else 12
    let last_month_year := if 1 < today.month then today.year else today.year - 1
    let start_date : Date := ⟨last_month_year, last_month, 1⟩
    let end_date : Date :=
      if last_month == 12 then ⟨last_month_year, last_month, 31⟩
      else subDay ⟨last_month_year, last_month + 1, 1⟩
    some (start_date, end_date)
  else if date_filter == "Last 3 Months" then
    let s1 : Date := { subDay { today with day := 1 } with day := 1 }
    let s2 : Date := { subDay s1 with day := 1 }
    some (s2, today)
  else none

/-- `get_date_range_from_filter`: the simpler preset list used by other report
pages; every unknown filter falls back to All-Time. -/
def get_date_range_from_filter (date_filter : String) (today : Date) :
    Date × Date :=
  if date_filter == "Today" then (today, today)
  else if date_filter == "This Week" then
    (subDays today (weekday today), today)
  else if date_filter == "This Month" then
    ({ today with day := 1 }, today)
  else if date_filter == "This Year" then
    ({ today with month := 1, day := 1 }, today)
  else (⟨2000, 1, 1⟩, today)

/-! ## Concrete databases for witnesses and counterexamples -/

/-- A populated database: one company, two branches, the three seeded roles,
a manager and two general employees in branch 1, a manager in branch 2, an open
branch task (id 1) with three incomplete assignments, a completed branch task
(id 3) with one completed assignment, and an open direct task (id 4) for
employee 2. -/
def wDB : DB :=
  { companies := [⟨1, true⟩],
    branches := [⟨1, 1, true⟩, ⟨2, 1, true⟩],
    roles := [⟨1, 1⟩, ⟨2, 2⟩, ⟨3, 3⟩],
    employees := [⟨1, 1, 1, true⟩, ⟨2, 1, 3, true⟩, ⟨3, 1, 3, true⟩, ⟨4, 2, 1, true⟩],
    tasks :=
      [⟨1, 1, some 1, none, "t1", none, false, none, none⟩,
       ⟨3, 1, some 1, none, "t3", none, true, some 1, some 5⟩,
       ⟨4, 1, none, some 2, "t4", none, false, none, none⟩],
    assignments :=
      [⟨1, 1, 1, false, none⟩, ⟨2, 1, 2, false, none⟩, ⟨3, 1, 3, false, none⟩,
       ⟨4, 3, 1, true, some 5⟩],
    next_task_id := 5, next_assignment_id := 5 }

/-- A database with an inactive employee inside an (active) branch. -/
def cascadeDB : DB :=
  { companies := [⟨1, true⟩], branches := [⟨1, 1, true⟩], roles := [⟨1, 1⟩],
    employees := [⟨1, 1, 1, false⟩], tasks := [], assignments := [],
    next_task_id := 1, next_assignment_id := 1 }

/-- A database whose branch 2 has zero active employees; branch 1 holds the
general employee 7 (an existing `employees` row, so completions attributed to
them satisfy the schema's `completed_by_id REFERENCES employees(id)`). -/
def zeroDB : DB :=
  { companies := [⟨1, true⟩], branches := [⟨1, 1, true⟩, ⟨2, 1, true⟩],
    roles := [⟨3, 3⟩], employees := [⟨7, 1, 3, true⟩], tasks := [], assignments := [],
    next_task_id := 1, next_assignment_id := 1 }

/-! ## Row-level lemmas about the UPDATE statements -/

theorem completeTaskRows_mem_eq {tasks : List Task} {tid eid now : Nat} {t : Task}
    (ht : t ∈ completeTaskRows tasks tid eid now) (hid : t.id = tid) :
    t.is_completed = true ∧ t.completed_by_id = some eid ∧ t.completed_at = some now := by
  rcases List.mem_map.1 ht with ⟨b, hb, rfl⟩
  by_cases h : b.id = tid
  · simp [h]
  · simp only [beq_iff_eq, if_neg h] at hid ⊢
    exact absurd hid h

theorem completeTaskRows_mem_ne {tasks : List Task} {tid eid now : Nat} {t : Task}
    (ht : t ∈ completeTaskRows tasks tid eid now) (hid : t.id ≠ tid) : t ∈ tasks := by
  rcases List.mem_map.1 ht with ⟨b, hb, rfl⟩
  by_cases h : b.id = tid
  · simp [h] at hid
  · simpa [h] using hb

theorem mem_completeTaskRows_of_ne {tasks : List Task} {tid eid now : Nat} {t : Task}
    (ht : t ∈ tasks) (hid : t.id ≠ tid) : t ∈ completeTaskRows tasks tid eid now := by
  refine List.mem_map.2 ⟨t, ht, ?_⟩
  simp [hid]

theorem markAssignmentRows_mem_eq {l : List TaskAssignment} {tid eid now : Nat}
    {a : TaskAssignment} (ha : a ∈ markAssignmentRows l tid eid now)
    (h1 : a.task_id = tid) (h2 : a.employee_id = eid) :
    a.is_completed = true ∧ a.completed_at = some now := by
  rcases List.mem_map.1 ha with ⟨b, hb, rfl⟩
  by_cases h : b.task_id = tid ∧ b.employee_id = eid
  · simp [h.1, h.2]
  · rw [if_neg (by simpa using h)] at h1 h2 ⊢
    exact absurd ⟨h1, h2⟩ h

theorem mem_markAssignmentRows_of_ne {l : List TaskAssignment} {tid eid now : Nat}
    {a : TaskAssignment} (ha : a ∈ l) (h : ¬(a.task_id = tid ∧ a.employee_id = eid)) :
    a ∈ markAssignmentRows l tid eid now := by
  refine List.mem_map.2 ⟨a, ha, ?_⟩
  rw [if_neg (by simpa using h)]

theorem markAssignmentRows_eq_self {l : List TaskAssignment} {tid eid now : Nat}
    (h : ∀ a ∈ l, ¬(a.task_id = tid ∧ a.employee_id = eid)) :
    markAssignmentRows l tid eid now = l := by
  unfold markAssignmentRows
  induction l with
  | nil => rfl
  | cons b l ih =>
    have hcond : (b.task_id == tid && b.employee_id == eid) = false := by
      simpa using h b (by simp)
    have ih' := ih (fun a ha => h a (List.mem_cons_of_mem _ ha))
    rw [List.map_cons, if_neg (by simp [hcond]), ih']

/-! ## Claim theorems -/

/-- C5: `mark_task_completed` on a task whose completion flag is already set
returns `true` and leaves the whole database untouched, whoever the actor. -/
theorem c5_mark_completed_idempotent (db : DB) (task_id employee_id now : Nat)
    (t : Task) (hfind : db.tasks.find? (fun t => t.id == task_id) = some t)
    (hdone : t.is_completed = true) :
    mark_task_completed db task_id employee_id now = (db, true) := by
  unfold mark_task_completed
  rw [hfind]
  simp [hdone]

/-- Witness for C5: the already-completed task 3 of `wDB`. -/
theorem c5_mark_completed_idempotent_witness :
    (wDB.tasks.find? (fun t => t.id == 3) =
        some ⟨3, 1, some 1, none, "t3", none, true, some 1, some 5⟩) ∧
    mark_task_completed wDB 3 2 77 = (wDB, true) :=
  ⟨by decide,
   c5_mark_completed_idempotent wDB 3 2 77
     ⟨3, 1, some 1, none, "t3", none, true, some 1, some 5⟩ (by decide) (by decide)⟩

/-- C1: on an open branch-targeted task, a single `mark_task_completed` call by
an actor whose role level is at most 2 marks the actor's own assignment rows
complete, immediately marks the whole task complete (flag set, completed-by =
actor, timestamp = now) and returns `true`, with no hypothesis at all on the
other assignments of the task. -/
theorem c1_manager_override (db : DB) (task_id employee_id now : Nat)
    (t : Task) (lvl : Nat)
    (hfind : db.tasks.find? (fun t => t.id == task_id) = some t)
    (hopen : t.is_completed = false)
    (hbranch : optTruthy t.branch_id = true)
    (hrole : lookupRoleLevel db employee_id = some lvl)
    (hlvl : lvl ≤ 2) :
    (mark_task_completed db task_id employee_id now).2 = true ∧
    (∀ t' ∈ (mark_task_completed db task_id employee_id now).1.tasks,
      t'.id = task_id →
        t'.is_completed = true ∧ t'.completed_by_id = some employee_id ∧
          t'.completed_at = some now) ∧
    (∀ a ∈ (mark_task_completed db task_id employee_id now).1.assignments,
      a.task_id = task_id → a.employee_id = employee_id →
        a.is_completed = true ∧ a.completed_at = some now) ∧
    (mark_task_completed db task_id employee_id now).1.employees = db.employees := by
  have hres : mark_task_completed db task_id employee_id now =
      ({ db with tasks := completeTaskRows db.tasks task_id employee_id now,
                 assignments := markAssignmentRows db.assignments task_id employee_id now },
       true) := by
    unfold mark_task_completed
    rw [hfind]
    simp [hopen, hbranch, hrole, hlvl]
  rw [hres]
  exact ⟨rfl, fun t' ht' hid => completeTaskRows_mem_eq ht' hid,
    fun a ha h1 h2 => markAssignmentRows_mem_eq ha h1 h2, rfl⟩

/-- Witness for C1: manager (employee 1, level 1) completes branch task 1 of
`wDB` while the other two assignments are still incomplete. -/
theorem c1_manager_override_witness :
    (wDB.tasks.find? (fun t => t.id == 1) =
        some ⟨1, 1, some 1, none, "t1", none, false, none, none⟩) ∧
    (lookupRoleLevel wDB 1 = some 1) ∧
    ((mark_task_completed wDB 1 1 100).2 = true ∧
     (∀ t' ∈ (mark_task_completed wDB 1 1 100).1.tasks,
       t'.id = 1 →
         t'.is_completed = true ∧ t'.completed_by_id = some 1 ∧
           t'.completed_at = some 100) ∧
     (∀ a ∈ (mark_task_completed wDB 1 1 100).1.assignments,
       a.task_id = 1 → a.employee_id = 1 →
         a.is_completed = true ∧ a.completed_at = some 100) ∧
     (mark_task_completed wDB 1 1 100).1.employees = wDB.employees) :=
  ⟨by decide, by decide,
   c1_manager_override wDB 1 1 100 ⟨1, 1, some 1, none, "t1", none, false, none, none⟩ 1
     (by decide) (by decide) (by decide) (by decide) (by decide)⟩

/-- C7: on an open employee-direct task (no truthy branch target, designated
employee `des`), `mark_task_completed` by `des` completes the task (flag,
timestamp, completed-by = actor) and returns `true`, while a call by any other
employee returns `false` and leaves the database entirely unchanged; in both
cases the returned boolean is exactly whether the task is now complete. -/
theorem c7_direct_task (db : DB) (task_id now : Nat) (t : Task) (des : Nat)
    (hfind : db.tasks.find? (fun t => t.id == task_id) = some t)
    (hopen : t.is_completed = false)
    (hbranch : optTruthy t.branch_id = false)
    (hdes : t.employee_id = some des) :
    ((mark_task_completed db task_id des now).2 = true ∧
     (∀ t' ∈ (mark_task_completed db task_id des now).1.tasks,
        t'.id = task_id →
          t'.is_completed = true ∧ t'.completed_by_id = some des ∧
            t'.completed_at = some now) ∧
     (mark_task_completed db task_id des now).1.assignments = db.assignments ∧
     (mark_task_completed db task_id des now).1.employees = db.employees) ∧
    (∀ eid, eid ≠ des → mark_task_completed db task_id eid now = (db, false)) := by
  constructor
  · have hres : mark_task_completed db task_id des now =
        ({ db with tasks := completeTaskRows db.tasks task_id des now }, true) := by
      unfold mark_task_completed
      rw [hfind]
      simp [hopen, hbranch, hdes]
    rw [hres]
    exact ⟨rfl, fun t' ht' hid => completeTaskRows_mem_eq ht' hid, rfl, rfl⟩
  · intro eid hne
    unfold mark_task_completed
    rw [hfind]
    simp only [hopen, hbranch, hdes, Bool.false_eq_true, if_false]
    simp [hne.symm]

/-- Witness for C7: direct task 4 of `wDB`, designated employee 2, other
employee 3. -/
theorem c7_direct_task_witness :
    (wDB.tasks.find? (fun t => t.id == 4) =
        some ⟨4, 1, none, some 2, "t4", none, false, none, none⟩) ∧
    (((mark_task_completed wDB 4 2 9).2 = true ∧
      (∀ t' ∈ (mark_task_completed wDB 4 2 9).1.tasks,
         t'.id = 4 →
           t'.is_completed = true ∧ t'.completed_by_id = some 2 ∧
             t'.completed_at = some 9) ∧
      (mark_task_completed wDB 4 2 9).1.assignments = wDB.assignments ∧
      (mark_task_completed wDB 4 2 9).1.employees = wDB.employees) ∧
     (∀ eid, eid ≠ 2 → mark_task_completed wDB 4 eid 9 = (wDB, false))) :=
  ⟨by decide,
   c7_direct_task wDB 4 9 ⟨4, 1, none, some 2, "t4", none, false, none, none⟩ 2
     (by decide) (by decide) (by decide) (by decide)⟩

/-- C8: `reopen_task` clears the completion flag, timestamp and completed-by of
every task row with the given id and resets every assignment row of the task to
incomplete with a null timestamp, touching nothing else; the operation takes no
actor and enforces no caller restriction (it applies to every database
unconditionally). -/
theorem c8_reopen_task_resets (db : DB) (task_id : Nat) :
    (∀ t' ∈ (reopen_task db task_id).tasks, t'.id = task_id →
       t'.is_completed = false ∧ t'.completed_at = none ∧ t'.completed_by_id = none) ∧
    (∀ a ∈ (reopen_task db task_id).assignments, a.task_id = task_id →
       a.is_completed = false ∧ a.completed_at = none) ∧
    (reopen_task db task_id).companies = db.companies ∧
    (reopen_task db task_id).branches = db.branches ∧
    (reopen_task db task_id).employees = db.employees ∧
    (∀ t' ∈ db.tasks, t'.id ≠ task_id → t' ∈ (reopen_task db task_id).tasks) ∧
    (∀ a ∈ db.assignments, a.task_id ≠ task_id → a ∈ (reopen_task db task_id).assignments) := by
  unfold reopen_task
  refine ⟨?_, ?_, rfl, rfl, rfl, ?_, ?_⟩
  · intro t' ht' hid
    rcases List.mem_map.1 ht' with ⟨b, hb, rfl⟩
    by_cases h : b.id = task_id
    · simp [h]
    · simp only [beq_iff_eq, if_neg h] at hid ⊢
      exact absurd hid h
  · intro a ha hid
    rcases List.mem_map.1 ha with ⟨b, hb, rfl⟩
    by_cases h : b.task_id = task_id
    · simp [h]
    · simp only [beq_iff_eq, if_neg h] at hid ⊢
      exact absurd hid h
  · intro t' ht' hid
    exact List.mem_map.2 ⟨t', ht', by simp [hid]⟩
  · intro a ha hid
    exact List.mem_map.2 ⟨a, ha, by simp [hid]⟩

/-- Witness for C8: reopening the completed task 3 of `wDB` resets its row and
its single completed assignment. -/
theorem c8_reopen_task_resets_witness :
    (⟨3, 1, some 1, none, "t3", none, true, some 1, some 5⟩ : Task) ∈ wDB.tasks ∧
    (∀ t' ∈ (reopen_task wDB 3).tasks, t'.id = 3 →
       t'.is_completed = false ∧ t'.completed_at = none ∧ t'.completed_by_id = none) ∧
    (∀ a ∈ (reopen_task wDB 3).assignments, a.task_id = 3 →
       a.is_completed = false ∧ a.completed_at = none) :=
  ⟨by decide, (c8_reopen_task_resets wDB 3).1, (c8_reopen_task_resets wDB 3).2.1⟩

/-- C2: on an open branch-targeted task, a `mark_task_completed` call by an
actor of role level 3 reports the task complete exactly when every assignment
of the task other than the actor's own is already complete (i.e. the call
completes the last remaining assignment); on any earlier call it returns
`false` and leaves every task row unchanged, and on the final call it marks
the task complete attributed to that last completer. -/
theorem c2_level3_all_complete_convergence (db : DB) (task_id employee_id now : Nat)
    (t : Task)
    (hfind : db.tasks.find? (fun t => t.id == task_id) = some t)
    (hopen : t.is_completed = false)
    (hbranch : optTruthy t.branch_id = true)
    (hrole : lookupRoleLevel db employee_id = some 3) :
    ((mark_task_completed db task_id employee_id now).2 = true ↔
      ∀ a ∈ db.assignments, a.task_id = task_id →
        a.is_completed = true ∨ a.employee_id = employee_id) ∧
    ((mark_task_completed db task_id employee_id now).2 = false →
      (mark_task_completed db task_id employee_id now).1.tasks = db.tasks) ∧
    ((mark_task_completed db task_id employee_id now).2 = true →
      ∀ t' ∈ (mark_task_completed db task_id employee_id now).1.tasks,
        t'.id = task_id →
          t'.is_completed = true ∧ t'.completed_by_id = some employee_id ∧
            t'.completed_at = some now) := by
  have hkey : (markAssignmentRows db.assignments task_id employee_id now).countP
        (fun a => a.task_id == task_id && !a.is_completed) = 0 ↔
      ∀ a ∈ db.assignments, a.task_id = task_id →
        a.is_completed = true ∨ a.employee_id = employee_id := by
    rw [List.countP_eq_zero]
    constructor
    · intro h a ha hid
      by_cases hemp : a.employee_id = employee_id
      · exact Or.inr hemp
      · refine Or.inl ?_
        have hmem : a ∈ markAssignmentRows db.assignments task_id employee_id now :=
          mem_markAssignmentRows_of_ne ha (fun hc => hemp hc.2)
        have := h _ hmem
        simpa [hid] using this
    · intro h a ha
      rcases List.mem_map.1 ha with ⟨b, hb, rfl⟩
      by_cases hc : b.task_id = task_id ∧ b.employee_id = employee_id
      · simp [hc.1, hc.2]
      · rw [if_neg (by simpa using hc)]
        by_cases hid : b.task_id = task_id
        · rcases h b hb hid with hcomp | hemp
          · simp [hcomp]
          · exact absurd ⟨hid, hemp⟩ hc
        · simp [hid]
  have hshape : mark_task_completed db task_id employee_id now =
      (if (markAssignmentRows db.assignments task_id employee_id now).countP
            (fun a => a.task_id == task_id && !a.is_completed) == 0 then
        ({ db with tasks := completeTaskRows db.tasks task_id employee_id now,
                   assignments := markAssignmentRows db.assignments task_id employee_id now },
         true)
      else
        ({ db with assignments := markAssignmentRows db.assignments task_id employee_id now },
         false)) := by
    unfold mark_task_completed
    rw [hfind]
    simp [hopen, hbranch, hrole]
  by_cases hall : (markAssignmentRows db.assignments task_id employee_id now).countP
      (fun a => a.task_id == task_id && !a.is_completed) = 0
  · rw [hshape, if_pos (by simpa using hall)]
    refine ⟨by simpa using hkey.1 hall, by simp, ?_⟩
    intro _ t' ht' hid
    exact completeTaskRows_mem_eq ht' hid
  · rw [hshape, if_neg (by simpa using hall)]
    refine ⟨?_, fun _ => rfl, by simp⟩
    simp only [Bool.false_eq_true, false_iff]
    intro hcontra
    exact hall (hkey.2 hcontra)

/-- Witness for C2: general employee 2 (level 3) marks branch task 1 of `wDB`
while assignments of employees 1 and 3 are still incomplete: the call reports
`false` and the task rows stay untouched. -/
theorem c2_level3_all_complete_convergence_witness :
    (wDB.tasks.find? (fun t => t.id == 1) =
        some ⟨1, 1, some 1, none, "t1", none, false, none, none⟩) ∧
    (lookupRoleLevel wDB 2 = some 3) ∧
    (((mark_task_completed wDB 1 2 50).2 = true ↔
       ∀ a ∈ wDB.assignments, a.task_id = 1 →
         a.is_completed = true ∨ a.employee_id = 2) ∧
     ((mark_task_completed wDB 1 2 50).2 = false →
       (mark_task_completed wDB 1 2 50).1.tasks = wDB.tasks) ∧
     ((mark_task_completed wDB 1 2 50).2 = true →
       ∀ t' ∈ (mark_task_completed wDB 1 2 50).1.tasks,
         t'.id = 1 →
           t'.is_completed = true ∧ t'.completed_by_id = some 2 ∧
             t'.completed_at = some 50)) :=
  ⟨by decide, by decide,
   c2_level3_all_complete_convergence wDB 1 2 50
     ⟨1, 1, some 1, none, "t1", none, false, none, none⟩
     (by decide) (by decide) (by decide) (by decide)⟩

/-- C3 counterexample: in `cascadeDB` the only employee is inactive; calling
`update_branch_status … true` on its branch sets the employee active again, so
reactivating a branch does automatically reactivate its employees, contrary to
the claim's asymmetric-cascade half. -/
theorem c3_reactivation_cascades_counterexample :
    cascadeDB.employees = [⟨1, 1, 1, false⟩] ∧
    (update_branch_status cascadeDB 1 true).employees = [⟨1, 1, 1, true⟩] :=
  ⟨rfl, by decide⟩

theorem branch_id_ite (c : Prop) [Decidable c] (e : Employee) (v : Bool) :
    (if c then { e with is_active := v } else e).branch_id = e.branch_id := by
  split <;> rfl

theorem any_branch_of_company {branches : List Branch} {cid bid : Nat}
    (hex : ∃ b ∈ branches, b.id = bid ∧ b.company_id = cid) :
    (branches.map (fun b =>
      if b.company_id == cid then { b with is_active := false } else b)).any
        (fun b => b.company_id == cid && b.id == bid) = true := by
  rcases hex with ⟨b0, hb0, hid, hc⟩
  refine List.any_eq_true.2
    ⟨(if b0.company_id == cid then { b0 with is_active := false } else b0),
     List.mem_map.2 ⟨b0, hb0, rfl⟩, ?_⟩
  simp [hc, hid]

/-- C3 amended: deactivating a company sets the company row, every branch of
the company and every employee of those branches inactive; and
`update_branch_status` writes the given flag to the branch and to every
employee of the branch, so the cascade to employees runs in both directions
(reactivation included), not only for deactivation. -/
theorem c3_cascade_deactivation_amended (db : DB) (company_id branch_id : Nat)
    (v : Bool) :
    (∀ c ∈ (update_company_status db company_id false).companies,
       c.id = company_id → c.is_active = false) ∧
    (∀ b ∈ (update_company_status db company_id false).branches,
       b.company_id = company_id → b.is_active = false) ∧
    (∀ e ∈ (update_company_status db company_id false).employees,
       (∃ b ∈ db.branches, b.id = e.branch_id ∧ b.company_id = company_id) →
         e.is_active = false) ∧
    (∀ b ∈ (update_branch_status db branch_id v).branches,
       b.id = branch_id → b.is_active = v) ∧
    (∀ e ∈ (update_branch_status db branch_id v).employees,
       e.branch_id = branch_id → e.is_active = v) := by
  unfold update_company_status update_branch_status
  refine ⟨?_, ?_, ?_, ?_, ?_⟩
  · intro c hc hid
    rcases List.mem_map.1 hc with ⟨b, hb, rfl⟩
    by_cases h : b.id = company_id
    · simp [h]
    · simp only [beq_iff_eq, if_neg h] at hid ⊢
      exact absurd hid h
  · intro b hb hid
    rcases List.mem_map.1 hb with ⟨b0, hb0, rfl⟩
    by_cases h : b0.company_id = company_id
    · simp [h]
    · simp only [beq_iff_eq, if_neg h] at hid ⊢
      exact absurd hid h
  · intro e he hex
    rcases List.mem_map.1 he with ⟨e0, he0, rfl⟩
    rw [branch_id_ite] at hex
    by_cases h : (db.branches.map (fun b =>
        if b.company_id == company_id then { b with is_active := false } else b)).any
          (fun b => b.company_id == company_id && b.id == e0.branch_id) = true
    · rw [if_pos h]
    · exact absurd (any_branch_of_company hex) h
  · intro b hb hid
    rcases List.mem_map.1 hb with ⟨b0, hb0, rfl⟩
    by_cases h : b0.id = branch_id
    · simp [h]
    · simp only [beq_iff_eq, if_neg h] at hid ⊢
      exact absurd hid h
  · intro e he hid
    rcases List.mem_map.1 he with ⟨e0, he0, rfl⟩
    by_cases h : e0.branch_id = branch_id
    · simp [h]
    · simp only [beq_iff_eq, if_neg h] at hid ⊢
      exact absurd hid h

/-- Witness for C3 amended: deactivating company 1 of `wDB` deactivates its
company row, branch 1 and employee 2; reactivating branch 1 of `cascadeDB`
reactivates employee 1. -/
theorem c3_cascade_deactivation_amended_witness :
    ((⟨1, false⟩ : Company) ∈ (update_company_status wDB 1 false).companies ∧
     (⟨1, 1, false⟩ : Branch) ∈ (update_company_status wDB 1 false).branches ∧
     (⟨2, 1, 3, false⟩ : Employee) ∈ (update_company_status wDB 1 false).employees ∧
     (∃ b ∈ wDB.branches, b.id = 1 ∧ b.company_id = 1)) ∧
    ((⟨1, false⟩ : Company).is_active = false ∧
     (⟨1, 1, false⟩ : Branch).is_active = false ∧
     (⟨2, 1, 3, false⟩ : Employee).is_active = false) ∧
    ((⟨1, 1, 1, true⟩ : Employee) ∈ (update_branch_status cascadeDB 1 true).employees ∧
     (⟨1, 1, 1, true⟩ : Employee).is_active = true) :=
  ⟨⟨by decide, by decide, by decide, by decide⟩,
   ⟨(c3_cascade_deactivation_amended wDB 1 1 true).1 ⟨1, false⟩ (by decide) (by decide),
    (c3_cascade_deactivation_amended wDB 1 1 true).2.1 ⟨1, 1, false⟩ (by decide) (by decide),
    (c3_cascade_deactivation_amended wDB 1 1 true).2.2.1 ⟨2, 1, 3, false⟩ (by decide)
      (by decide)⟩,
   ⟨by decide,
    (c3_cascade_deactivation_amended cascadeDB 1 1 true).2.2.2.2 ⟨1, 1, 1, true⟩
      (by decide) (by decide)⟩⟩

/-- C4 counterexample: creating a branch task against `zeroDB`'s branch 2
(which has zero active employees) yields zero assignments, yet a single
`mark_task_completed` call — here by employee 7, an existing general employee
of branch 1, so the completing UPDATE's foreign key on `completed_by_id` is
satisfied — immediately transitions the task to complete via the vacuously
true all-assignments-complete check, refuting "no sequence of
mark_task_completed calls ever transitions such a task to complete". -/
theorem c4_zero_employee_branch_counterexample :
    activeBranchEmployees zeroDB 2 = [] ∧
    zeroDB.employees.find? (fun e => e.id == 7) = some ⟨7, 1, 3, true⟩ ∧
    (create_task zeroDB 1 "z" none (some 2) none).1.assignments = [] ∧
    mark_task_completed (create_task zeroDB 1 "z" none (some 2) none).1 1 7 50 =
      ({ zeroDB with
           tasks := [⟨1, 1, some 2, none, "z", none, true, some 7, some 50⟩],
           next_task_id := 2 }, true) :=
  ⟨rfl, by decide, by decide, by decide⟩

/-- C4 amended: a branch task created against a branch with zero active
employees does get zero TaskAssignment rows, but it does not persist as
incomplete: the very next `mark_task_completed` call on it by any existing
employee — whatever their branch or role, since the branch path checks
neither — immediately marks it complete, because the branch path's
all-assignments-complete check is vacuously true over the empty assignment set
(and the manager override can fire likewise); the existence hypothesis keeps
the completing write inside the schema's `completed_by_id` foreign key. -/
theorem c4_zero_employee_branch_amended (db : DB) (cid b : Nat) (desc : String)
    (due : Option Nat)
    (hb : b ≠ 0)
    (hempty : activeBranchEmployees db b = [])
    (hfreshT : ∀ t ∈ db.tasks, t.id ≠ db.next_task_id)
    (hfreshA : ∀ a ∈ db.assignments, a.task_id ≠ db.next_task_id) :
    (create_task db cid desc due (some b) none).1.assignments = db.assignments ∧
    ∀ eid now, (∃ e ∈ db.employees, e.id = eid) →
      (mark_task_completed (create_task db cid desc due (some b) none).1
          (create_task db cid desc due (some b) none).2 eid now).2 = true ∧
      ∀ t' ∈ (mark_task_completed (create_task db cid desc due (some b) none).1
          (create_task db cid desc due (some b) none).2 eid now).1.tasks,
        t'.id = (create_task db cid desc due (some b) none).2 →
          t'.is_completed = true ∧ t'.completed_by_id = some eid ∧
            t'.completed_at = some now := by
  have hcreate : create_task db cid desc due (some b) none =
      ({ db with
           tasks := db.tasks ++
             [⟨db.next_task_id, cid, some b, none, desc, due, false, none, none⟩],
           next_task_id := db.next_task_id + 1 }, db.next_task_id) := by
    unfold create_task
    simp [optTruthy, hb, hempty]
  rw [hcreate]
  refine ⟨rfl, ?_⟩
  intro eid now _
  have hfind : (db.tasks ++
        [(⟨db.next_task_id, cid, some b, none, desc, due, false, none, none⟩ : Task)]).find?
          (fun t => t.id == db.next_task_id) =
      some ⟨db.next_task_id, cid, some b, none, desc, due, false, none, none⟩ := by
    rw [List.find?_append]
    have h1 : db.tasks.find? (fun t => t.id == db.next_task_id) = none :=
      List.find?_eq_none.2 (fun t ht => by simp [hfreshT t ht])
    rw [h1]
    simp
  have hcount : (markAssignmentRows db.assignments db.next_task_id eid now).countP
      (fun a => a.task_id == db.next_task_id && !a.is_completed) = 0 := by
    rw [List.countP_eq_zero]
    intro a ha
    rcases List.mem_map.1 ha with ⟨b0, hb0, rfl⟩
    have hne := hfreshA b0 hb0
    by_cases hc : b0.task_id = db.next_task_id ∧ b0.employee_id = eid
    · exact absurd hc.1 hne
    · rw [if_neg (by simpa using hc)]
      simp [hne]
  have hshape : mark_task_completed
      { db with
          tasks := db.tasks ++
            [⟨db.next_task_id, cid, some b, none, desc, due, false, none, none⟩],
          next_task_id := db.next_task_id + 1 } db.next_task_id eid now =
      ({ db with
           tasks := completeTaskRows
             (db.tasks ++
               [⟨db.next_task_id, cid, some b, none, desc, due, false, none, none⟩])
             db.next_task_id eid now,
           assignments := markAssignmentRows db.assignments db.next_task_id eid now,
           next_task_id := db.next_task_id + 1 }, true) := by
    unfold mark_task_completed
    rw [hfind]
    cases hml : lookupRoleLevel
        { db with
            tasks := db.tasks ++
              [⟨db.next_task_id, cid, some b, none, desc, due, false, none, none⟩],
            next_task_id := db.next_task_id + 1 } eid with
    | none => simp [optTruthy, hb, hcount]
    | some lvl =>
      by_cases hl : lvl ≤ 2
      · simp [optTruthy, hb, hl]
      · simp [optTruthy, hb, hl, hcount]
  rw [hshape]
  exact ⟨rfl, fun t' ht' hid => completeTaskRows_mem_eq ht' hid⟩

/-- Witness for C4 amended: `zeroDB`, branch 2; the guarded conclusion applies
to the existing employee 7. -/
theorem c4_zero_employee_branch_amended_witness :
    (activeBranchEmployees zeroDB 2 = [] ∧
     (∀ t ∈ zeroDB.tasks, t.id ≠ zeroDB.next_task_id) ∧
     (∀ a ∈ zeroDB.assignments, a.task_id ≠ zeroDB.next_task_id) ∧
     (∃ e ∈ zeroDB.employees, e.id = 7)) ∧
    ((create_task zeroDB 1 "z" none (some 2) none).1.assignments = zeroDB.assignments ∧
     ∀ eid now, (∃ e ∈ zeroDB.employees, e.id = eid) →
       (mark_task_completed (create_task zeroDB 1 "z" none (some 2) none).1
           (create_task zeroDB 1 "z" none (some 2) none).2 eid now).2 = true ∧
       ∀ t' ∈ (mark_task_completed (create_task zeroDB 1 "z" none (some 2) none).1
           (create_task zeroDB 1 "z" none (some 2) none).2 eid now).1.tasks,
         t'.id = (create_task zeroDB 1 "z" none (some 2) none).2 →
           t'.is_completed = true ∧ t'.completed_by_id = some eid ∧
             t'.completed_at = some now) :=
  ⟨⟨by decide, by decide, by decide, by decide⟩,
   c4_zero_employee_branch_amended zeroDB 1 2 "z" none (by decide) (by decide)
     (by decide) (by decide)⟩

/-- C6: a branch-targeted `create_task` returns the fresh task id; the
assignment rows carrying that id are exactly one per employee active in the
branch at creation time (same ids, same order), each initialized incomplete;
and inserting a new employee into the branch afterwards leaves the assignment
table unchanged, so the pre-existing task gains no assignment for them. -/
theorem c6_fanout_completeness (db : DB) (cid b : Nat) (desc : String)
    (due : Option Nat)
    (hb : b ≠ 0)
    (hfreshA : ∀ a ∈ db.assignments, a.task_id ≠ db.next_task_id) :
    (create_task db cid desc due (some b) none).2 = db.next_task_id ∧
    ((create_task db cid desc due (some b) none).1.assignments.filter
        (fun a => a.task_id == db.next_task_id)).map (fun a => a.employee_id) =
      (activeBranchEmployees db b).map (fun e => e.id) ∧
    ((create_task db cid desc due (some b) none).1.assignments.filter
        (fun a => a.task_id == db.next_task_id)).length =
      (activeBranchEmployees db b).length ∧
    (∀ a ∈ (create_task db cid desc due (some b) none).1.assignments,
       a.task_id = db.next_task_id → a.is_completed = false ∧ a.completed_at = none) ∧
    (∀ nid rid,
       (add_employee (create_task db cid desc due (some b) none).1 nid b rid).assignments =
         (create_task db cid desc due (some b) none).1.assignments) := by
  have hcreate : create_task db cid desc due (some b) none =
      ({ db with
           tasks := db.tasks ++
             [⟨db.next_task_id, cid, some b, none, desc, due, false, none, none⟩],
           assignments := db.assignments ++
             (activeBranchEmployees db b).enum.map (fun p =>
               ⟨db.next_assignment_id + p.1, db.next_task_id, p.2.id, false, none⟩),
           next_task_id := db.next_task_id + 1,
           next_assignment_id := db.next_assignment_id +
             ((activeBranchEmployees db b).enum.map (fun p =>
               (⟨db.next_assignment_id + p.1, db.next_task_id, p.2.id, false, none⟩ :
                 TaskAssignment))).length }, db.next_task_id) := by
    unfold create_task
    simp [optTruthy, hb]
  rw [hcreate]
  have hfilter_old : db.assignments.filter (fun a => a.task_id == db.next_task_id) = [] :=
    List.filter_eq_nil_iff.2 (fun a ha => by simp [hfreshA a ha])
  have hfilter_new : ((activeBranchEmployees db b).enum.map (fun p =>
      (⟨db.next_assignment_id + p.1, db.next_task_id, p.2.id, false, none⟩ :
        TaskAssignment))).filter (fun a => a.task_id == db.next_task_id) =
      (activeBranchEmployees db b).enum.map (fun p =>
        (⟨db.next_assignment_id + p.1, db.next_task_id, p.2.id, false, none⟩ :
          TaskAssignment)) := by
    rw [List.filter_eq_self]
    intro a ha
    rcases List.mem_map.1 ha with ⟨p, _, rfl⟩
    simp
  have hmap : (((activeBranchEmployees db b).enum.map (fun p =>
      (⟨db.next_assignment_id + p.1, db.next_task_id, p.2.id, false, none⟩ :
        TaskAssignment))).map (fun a => a.employee_id)) =
      (activeBranchEmployees db b).map (fun e => e.id) := by
    rw [List.map_map]
    have := List.enum_map_snd (activeBranchEmployees db b)
    calc (activeBranchEmployees db b).enum.map
          ((fun a => a.employee_id) ∘ (fun p =>
            (⟨db.next_assignment_id + p.1, db.next_task_id, p.2.id, false, none⟩ :
              TaskAssignment)))
        = (activeBranchEmployees db b).enum.map ((fun e => e.id) ∘ Prod.snd) := rfl
      _ = ((activeBranchEmployees db b).enum.map Prod.snd).map (fun e => e.id) := by
            rw [List.map_map]
      _ = (activeBranchEmployees db b).map (fun e => e.id) := by rw [this]
  refine ⟨rfl, ?_, ?_, ?_, fun nid rid => rfl⟩
  · show ((db.assignments ++ _).filter _).map _ = _
    rw [List.filter_append, hfilter_old, hfilter_new, List.nil_append, hmap]
  · show ((db.assignments ++ _).filter _).length = _
    rw [List.filter_append, hfilter_old, hfilter_new, List.nil_append,
      List.length_map, List.enum_length]
  · intro a ha hid
    rcases List.mem_append.1 ha with h | h
    · exact absurd hid (hfreshA a h)
    · rcases List.mem_map.1 h with ⟨p, _, rfl⟩
      exact ⟨rfl, rfl⟩

/-- Witness for C6: creating a branch task on branch 1 of `wDB` (three active
employees) fans out to assignments for employees 1, 2, 3. -/
theorem c6_fanout_completeness_witness :
    (∀ a ∈ wDB.assignments, a.task_id ≠ wDB.next_task_id) ∧
    ((create_task wDB 1 "new" none (some 1) none).2 = wDB.next_task_id ∧
     ((create_task wDB 1 "new" none (some 1) none).1.assignments.filter
         (fun a => a.task_id == wDB.next_task_id)).map (fun a => a.employee_id) =
       (activeBranchEmployees wDB 1).map (fun e => e.id) ∧
     ((create_task wDB 1 "new" none (some 1) none).1.assignments.filter
         (fun a => a.task_id == wDB.next_task_id)).length =
       (activeBranchEmployees wDB 1).length ∧
     (∀ a ∈ (create_task wDB 1 "new" none (some 1) none).1.assignments,
        a.task_id = wDB.next_task_id → a.is_completed = false ∧ a.completed_at = none) ∧
     (∀ nid rid,
        (add_employee (create_task wDB 1 "new" none (some 1) none).1 nid 1 rid).assignments =
          (create_task wDB 1 "new" none (some 1) none).1.assignments)) :=
  ⟨by decide, c6_fanout_completeness wDB 1 1 "new" none (by decide) (by decide)⟩

/-- C10: the branch path of `mark_task_completed` performs no branch-membership
or permission check on the actor: an employee with role level at most 2 from a
different branch than the task's target, with no assignment row for the task,
still immediately completes the whole task attributed to themselves, and the
assignment table is left byte-for-byte unchanged (no row is created or
updated); no `RolePermissions` function occurs as a hypothesis. -/
theorem c10_no_permission_check (db : DB) (task_id employee_id now b : Nat)
    (t : Task) (e : Employee) (r : Role)
    (hfind : db.tasks.find? (fun t => t.id == task_id) = some t)
    (hopen : t.is_completed = false)
    (hbranch : t.branch_id = some b) (hb : b ≠ 0)
    (hemp : db.employees.find? (fun e => e.id == employee_id) = some e)
    (hrole : db.roles.find? (fun r => r.id == e.role_id) = some r)
    (hlvl : r.role_level ≤ 2)
    (hdiff : e.branch_id ≠ b)
    (hnoassign : ∀ a ∈ db.assignments,
      ¬(a.task_id = task_id ∧ a.employee_id = employee_id)) :
    (mark_task_completed db task_id employee_id now).2 = true ∧
    (mark_task_completed db task_id employee_id now).1.assignments = db.assignments ∧
    (∀ t' ∈ (mark_task_completed db task_id employee_id now).1.tasks,
      t'.id = task_id →
        t'.is_completed = true ∧ t'.completed_by_id = some employee_id ∧
          t'.completed_at = some now) := by
  have hrl : lookupRoleLevel db employee_id = some r.role_level := by
    unfold lookupRoleLevel
    rw [hemp]
    simp [hrole]
  have hres : mark_task_completed db task_id employee_id now =
      ({ db with tasks := completeTaskRows db.tasks task_id employee_id now,
                 assignments := markAssignmentRows db.assignments task_id employee_id now },
       true) := by
    unfold mark_task_completed
    rw [hfind]
    simp [hopen, hbranch, optTruthy, hb, hrl, hlvl]
  rw [hres]
  exact ⟨rfl, markAssignmentRows_eq_self hnoassign,
    fun t' ht' hid => completeTaskRows_mem_eq ht' hid⟩

/-- Witness for C10: employee 4 of `wDB` (level 1, branch 2, no assignment row
for task 1) completes branch task 1 targeted at branch 1. -/
theorem c10_no_permission_check_witness :
    (wDB.tasks.find? (fun t => t.id == 1) =
        some ⟨1, 1, some 1, none, "t1", none, false, none, none⟩) ∧
    (wDB.employees.find? (fun e => e.id == 4) = some ⟨4, 2, 1, true⟩) ∧
    (∀ a ∈ wDB.assignments, ¬(a.task_id = 1 ∧ a.employee_id = 4)) ∧
    ((mark_task_completed wDB 1 4 100).2 = true ∧
     (mark_task_completed wDB 1 4 100).1.assignments = wDB.assignments ∧
     (∀ t' ∈ (mark_task_completed wDB 1 4 100).1.tasks,
       t'.id = 1 →
         t'.is_completed = true ∧ t'.completed_by_id = some 4 ∧
           t'.completed_at = some 100)) :=
  ⟨by decide, by decide, by decide,
   c10_no_permission_check wDB 1 4 100 1
     ⟨1, 1, some 1, none, "t1", none, false, none, none⟩ ⟨4, 2, 1, true⟩ ⟨1, 1⟩
     (by decide) (by decide) (by decide) (by decide) (by decide) (by decide) (by decide)
     (by decide) (by decide)⟩

/-! ## Calendar lemmas for the date-range presets -/

theorem daysInMonth_pos (y m : Nat) : 1 ≤ daysInMonth y m := by
  unfold daysInMonth
  split_ifs <;> omega

theorem daysInMonth_12 (y : Nat) : daysInMonth y 12 = 31 := rfl

theorem daysBeforeMonth_succ (y m : Nat) (h : 1 ≤ m) :
    daysBeforeMonth y (m + 1) = daysBeforeMonth y m + daysInMonth y m := by
  match m, h with
  | k + 1, _ => rfl

theorem daysBeforeMonth_12 (y : Nat) :
    daysBeforeMonth y 12 = 334 + (if isLeapYear y then 1 else 0) := by
  cases h : isLeapYear y <;> simp [daysBeforeMonth, daysInMonth, h]

theorem leapsBefore_succ (j : Nat) :
    leapsBefore (j + 1) = leapsBefore j + (if isLeapYear (j + 1) then 1 else 0) := by
  have h4 := Nat.succ_div j 4
  have h100 := Nat.succ_div j 100
  have h400 := Nat.succ_div j 400
  simp only [Nat.dvd_iff_mod_eq_zero] at h4 h100 h400
  unfold leapsBefore isLeapYear
  by_cases m4 : (j + 1) % 4 = 0 <;> by_cases m100 : (j + 1) % 100 = 0 <;>
    by_cases m400 : (j + 1) % 400 = 0 <;>
    simp [m4, m100, m400] at h4 h100 h400 ⊢ <;> omega

theorem toOrdinal_pos {d : Date} (hv : d.isValid) : 1 ≤ toOrdinal d := by
  obtain ⟨_, _, _, hd1, _⟩ := hv
  unfold toOrdinal
  omega

theorem subDay_ordinal {d : Date} (hv : d.isValid) (h2 : 2 ≤ toOrdinal d) :
    (subDay d).isValid ∧ toOrdinal (subDay d) + 1 = toOrdinal d := by
  obtain ⟨hy, hm1, hm12, hd1, hdm⟩ := hv
  unfold subDay
  by_cases hday : 1 < d.day
  · rw [if_pos hday]
    refine ⟨?_, ?_⟩
    · show 1 ≤ d.year ∧ 1 ≤ d.month ∧ d.month ≤ 12 ∧ 1 ≤ d.day - 1 ∧
        d.day - 1 ≤ daysInMonth d.year d.month
      exact ⟨hy, hm1, hm12, by omega, le_trans (Nat.sub_le d.day 1) hdm⟩
    · show 365 * (d.year - 1) + leapsBefore (d.year - 1) + daysBeforeMonth d.year d.month +
          (d.day - 1) + 1 =
        365 * (d.year - 1) + leapsBefore (d.year - 1) + daysBeforeMonth d.year d.month + d.day
      omega
  · by_cases hmon : 1 < d.month
    · rw [if_neg hday, if_pos hmon]
      have hd_eq : d.day = 1 := by omega
      refine ⟨?_, ?_⟩
      · show 1 ≤ d.year ∧ 1 ≤ d.month - 1 ∧ d.month - 1 ≤ 12 ∧
          1 ≤ daysInMonth d.year (d.month - 1) ∧
          daysInMonth d.year (d.month - 1) ≤ daysInMonth d.year (d.month - 1)
        exact ⟨hy, by omega, by omega, daysInMonth_pos _ _, le_refl _⟩
      · have hsucc := daysBeforeMonth_succ d.year (d.month - 1) (by omega)
        have hmm : d.month - 1 + 1 = d.month := by omega
        rw [hmm] at hsucc
        show 365 * (d.year - 1) + leapsBefore (d.year - 1) +
            daysBeforeMonth d.year (d.month - 1) + daysInMonth d.year (d.month - 1) + 1 =
          365 * (d.year - 1) + leapsBefore (d.year - 1) + daysBeforeMonth d.year d.month + d.day
        omega
    · rw [if_neg hday, if_neg hmon]
      have hd_eq : d.day = 1 := by omega
      have hm_eq : d.month = 1 := by omega
      have hy2 : 2 ≤ d.year := by
        by_contra hc
        have hy1 : d.year = 1 := by omega
        unfold toOrdinal at h2
        rw [hy1, hm_eq, hd_eq] at h2
        simp [leapsBefore, daysBeforeMonth] at h2
      have h31 : (31 : Nat) ≤ daysInMonth (d.year - 1) 12 := by
        rw [daysInMonth_12]
      refine ⟨?_, ?_⟩
      · show 1 ≤ d.year - 1 ∧ 1 ≤ 12 ∧ 12 ≤ 12 ∧ 1 ≤ 31 ∧ 31 ≤ daysInMonth (d.year - 1) 12
        exact ⟨by omega, by omega, by omega, by omega, h31⟩
      · have h12 := daysBeforeMonth_12 (d.year - 1)
        have hls := leapsBefore_succ (d.year - 2)
        have hj : d.year - 2 + 1 = d.year - 1 := by omega
        rw [hj] at hls
        have hb1 : daysBeforeMonth d.year 1 = 0 := rfl
        show 365 * (d.year - 1 - 1) + leapsBefore (d.year - 1 - 1) +
            daysBeforeMonth (d.year - 1) 12 + 31 + 1 =
          365 * (d.year - 1) + leapsBefore (d.year - 1) + daysBeforeMonth d.year d.month + d.day
        rw [hm_eq, hd_eq, hb1, show d.year - 1 - 1 = d.year - 2 from by omega]
        by_cases hleap : isLeapYear (d.year - 1) = true
        · simp only [hleap, if_true] at h12 hls
          omega
        · simp only [Bool.not_eq_true] at hleap
          simp only [hleap, Bool.false_eq_true, if_false] at h12 hls
          omega

theorem subDays_ordinal : ∀ (n : Nat) (d : Date), d.isValid → n + 1 ≤ toOrdinal d →
    (subDays d n).isValid ∧ toOrdinal (subDays d n) + n = toOrdinal d := by
  intro n
  induction n with
  | zero => exact fun d hv _ => ⟨hv, rfl⟩
  | succ k ih =>
    intro d hv h
    have hstep : subDays d (k + 1) = subDays (subDay d) k := rfl
    rw [hstep]
    have h2 : 2 ≤ toOrdinal d := by omega
    obtain ⟨hv', hord⟩ := subDay_ordinal hv h2
    obtain ⟨hv'', hord'⟩ := ih (subDay d) hv' (by omega)
    exact ⟨hv'', by omega⟩

theorem weekday_add_one_le {d : Date} (hv : d.isValid) : weekday d + 1 ≤ toOrdinal d := by
  have h1 := toOrdinal_pos hv
  unfold weekday
  omega

/-- C9: "This Week" maps any valid current date to the inclusive range from
the Monday of the current ISO week (a valid date of weekday 0, at most six
days back, exactly `weekday today` days before today) through today, in both
`view_reports_date_range` and `get_date_range_from_filter`; and "Last Month"
maps it to the first through last calendar day of the previous month, the last
day computed by `daysInMonth` of the previous month's year and month (so
February yields the 28th or 29th by leap year). -/
theorem c9_date_range_presets (today : Date) (hv : today.isValid) :
    (view_reports_date_range "This Week" today =
        some (subDays today (weekday today), today) ∧
      get_date_range_from_filter "This Week" today =
        (subDays today (weekday today), today) ∧
      (subDays today (weekday today)).isValid ∧
      weekday (subDays today (weekday today)) = 0 ∧
      toOrdinal (subDays today (weekday today)) + weekday today = toOrdinal today ∧
      weekday today ≤ 6) ∧
    view_reports_date_range "Last Month" today =
      some (⟨(if 1 < today.month then today.year else today.year - 1),
             (if 1 < today.month then today.month - 1 else 12), 1⟩,
            ⟨(if 1 < today.month then today.year else today.year - 1),
             (if 1 < today.month then today.month - 1 else 12),
             daysInMonth (if 1 < today.month then today.year else today.year - 1)
               (if 1 < today.month then today.month - 1 else 12)⟩) := by
  obtain ⟨hy, hm1, hm12, hd1, hdm⟩ := hv
  have hv' : today.isValid := ⟨hy, hm1, hm12, hd1, hdm⟩
  have hwle := weekday_add_one_le hv'
  obtain ⟨hvmon, hordmon⟩ := subDays_ordinal (weekday today) today hv' (by omega)
  refine ⟨⟨rfl, rfl, hvmon, ?_, hordmon, ?_⟩, ?_⟩
  · unfold weekday at hordmon ⊢
    omega
  · unfold weekday
    omega
  · by_cases hm : 1 < today.month
    · have h12 : (today.month - 1 == 12) = false := by
        simp only [beq_eq_false_iff_ne, ne_eq]
        omega
      simp only [view_reports_date_range, String.reduceBEq, Bool.false_eq_true, if_false,
        h12, hm, if_true]
      unfold subDay
      rw [if_neg (show ¬ (1 : Nat) < 1 by omega),
        if_pos (show 1 < today.month - 1 + 1 by omega),
        show today.month - 1 + 1 - 1 = today.month - 1 from by omega]
    · have hmeq : today.month = 1 := by omega
      simp only [view_reports_date_range, String.reduceBEq, Bool.false_eq_true, if_false,
        if_neg hm]
      simp [hmeq, daysInMonth_12]

/-- Witness for C9: Wednesday 2024-03-13 — "This Week" starts on Monday
2024-03-11, "Last Month" is Feb 1 through Feb 29 (2024 is a leap year). -/
theorem c9_date_range_presets_witness :
    (⟨2024, 3, 13⟩ : Date).isValid ∧
    ((view_reports_date_range "This Week" ⟨2024, 3, 13⟩ =
        some (subDays ⟨2024, 3, 13⟩ (weekday ⟨2024, 3, 13⟩), ⟨2024, 3, 13⟩) ∧
      get_date_range_from_filter "This Week" ⟨2024, 3, 13⟩ =
        (subDays ⟨2024, 3, 13⟩ (weekday ⟨2024, 3, 13⟩), ⟨2024, 3, 13⟩) ∧
      (subDays (⟨2024, 3, 13⟩ : Date) (weekday ⟨2024, 3, 13⟩)).isValid ∧
      weekday (subDays ⟨2024, 3, 13⟩ (weekday ⟨2024, 3, 13⟩)) = 0 ∧
      toOrdinal (subDays ⟨2024, 3, 13⟩ (weekday ⟨2024, 3, 13⟩)) + weekday ⟨2024, 3, 13⟩ =
        toOrdinal ⟨2024, 3, 13⟩ ∧
      weekday (⟨2024, 3, 13⟩ : Date) ≤ 6) ∧
     view_reports_date_range "Last Month" ⟨2024, 3, 13⟩ =
       some (⟨(if 1 < (⟨2024, 3, 13⟩ : Date).month then (⟨2024, 3, 13⟩ : Date).year
                else (⟨2024, 3, 13⟩ : Date).year - 1),
              (if 1 < (⟨2024, 3, 13⟩ : Date).month then (⟨2024, 3, 13⟩ : Date).month - 1
                else 12), 1⟩,
             ⟨(if 1 < (⟨2024, 3, 13⟩ : Date).month then (⟨2024, 3, 13⟩ : Date).year
                else (⟨2024, 3, 13⟩ : Date).year - 1),
              (if 1 < (⟨2024, 3, 13⟩ : Date).month then (⟨2024, 3, 13⟩ : Date).month - 1
                else 12),
              daysInMonth
                (if 1 < (⟨2024, 3, 13⟩ : Date).month then (⟨2024, 3, 13⟩ : Date).year
                  else (⟨2024, 3, 13⟩ : Date).year - 1)
                (if 1 < (⟨2024, 3, 13⟩ : Date).month then (⟨2024, 3, 13⟩ : Date).month - 1
                  else 12)⟩)) :=
  ⟨by decide, c9_date_range_presets ⟨2024, 3, 13⟩ (by decide)⟩

end Akhand
